import Mathlib

/-!
Verification of the article-to-Markdown serializer of the ArticleGenius
single-page application (src/App.js). The serializer is the function
formatArticleAsMarkdown (lines 58 to 98); the download-filename expression
is taken from handleDownloadArticle (line 113).

The embedding follows the JavaScript source directly. Optional object
fields become Option String; JavaScript truthiness on a string field
(undefined and the empty string are falsy) is the function truthy;
template-literal interpolation of a possibly-undefined field is jsStr;
the pattern field-or-fallback is jsOr. A null article argument is the
none case of Option ArticleRecord, and the unguarded access
articleData.sections.forEach on an article without a sections field is
modelled as an Except.error result (the thrown TypeError).
-/

namespace ArticleGenius

/-- FAQ entry of the article record: a question and an answer. -/
structure FaqEntry where
  question : String
  answer : String
deriving DecidableEq, Repr

/-- Content block of a section. The type tag decides which other fields
are meaningful; value, url and caption may be absent in the incoming
JSON, hence Option. -/
structure ContentBlock where
  type : String
  value : Option String
  url : Option String
  caption : Option String
deriving DecidableEq, Repr

/-- Article section: an optional heading and an ordered list of content
blocks. -/
structure Section where
  heading : Option String
  content : List ContentBlock
deriving DecidableEq, Repr

/-- Structured article record delivered by the generation service. The
sections field is required by the data model but can be absent when the
external service violates the contract, hence Option. -/
structure ArticleRecord where
  title : Option String
  subtitle : Option String
  introduction : Option String
  sections : Option (List Section)
  faq_section : Option (List FaqEntry)
  conclusion : Option String
deriving DecidableEq, Repr

/-- JavaScript truthiness of an optional string field: an absent field
(undefined) and the empty string are falsy, every other string is truthy. -/
def truthy : Option String → Bool
  | none => false
  | some s => !decide (s = "")

/-- Template-literal interpolation of a possibly-absent string field:
JavaScript renders undefined as the word undefined. -/
def jsStr : Option String → String
  | none => "undefined"
  | some s => s

/-- The JavaScript field-or-fallback idiom: the field when truthy,
otherwise the fallback literal. -/
def jsOr (v : Option String) (fallback : String) : String :=
  if truthy v then jsStr v else fallback

/-- Concatenation of a list of strings, modelling a forEach loop that
appends one formatted piece per element. -/
def strConcat : List String → String
  | [] => ""
  | s :: rest => s ++ strConcat rest

/-- Markdown emitted for one content block (App.js lines 75 to 81):
a text block emits its value and a blank line; an image block with a
truthy url emits an image line and a blank line; everything else emits
nothing. -/
def renderBlock (block : ContentBlock) : String :=
  if block.type = "text" then
    jsStr block.value ++ "\n\n"
  else if block.type = "image" ∧ truthy block.url then
    "![" ++ jsOr block.caption "Image" ++ "](" ++ jsStr block.url ++ ")" ++ "\n\n"
  else ""

/-- Markdown emitted for one section (App.js lines 71 to 82): an optional
heading line followed by the blocks in order. -/
def renderSection (sec : Section) : String :=
  (if truthy sec.heading then "### " ++ jsStr sec.heading ++ "\n\n" else "")
    ++ strConcat (sec.content.map renderBlock)

/-- Markdown emitted for one FAQ entry (App.js lines 87 to 88): a bullet
question line and an indented answer line ending in a blank line. -/
def renderFaqEntry (faq : FaqEntry) : String :=
  "* **Q:** " ++ faq.question ++ "\n" ++ "  **A:** " ++ faq.answer ++ "\n\n"

/-- Markdown emitted for the FAQ part (App.js lines 84 to 90): present
and non-empty faq_section gives the heading plus the entries, otherwise
nothing. -/
def renderFaq : Option (List FaqEntry) → String
  | none => ""
  | some entries =>
    if entries.length > 0 then
      "## Frequently Asked Questions" ++ "\n\n" ++ strConcat (entries.map renderFaqEntry)
    else ""

/-- Markdown produced for a non-null article whose sections field is
present, following App.js lines 61 to 95 piece by piece. -/
def renderValid (articleData : ArticleRecord) (secs : List Section) : String :=
  ("# " ++ jsOr articleData.title "Untitled Article" ++ "\n\n")
    ++ (if truthy articleData.subtitle then "## " ++ jsStr articleData.subtitle ++ "\n\n" else "")
    ++ (if truthy articleData.introduction then jsStr articleData.introduction ++ "\n\n" else "")
    ++ strConcat (secs.map renderSection)
    ++ renderFaq articleData.faq_section
    ++ (if truthy articleData.conclusion then
          "## Conclusion" ++ "\n\n" ++ (jsStr articleData.conclusion ++ "\n\n")
        else "")

/-- The serializer formatArticleAsMarkdown (App.js lines 58 to 98).
A null argument returns the empty string (line 59). A non-null article
without a sections field hits the unguarded forEach on line 71 and throws
a TypeError, modelled as an error result; otherwise the Markdown string
is returned. -/
def formatArticleAsMarkdown : Option ArticleRecord → Except String String
  | none => Except.ok ""
  | some articleData =>
    match articleData.sections with
    | none => Except.error "TypeError: cannot read forEach of undefined sections"
    | some secs => Except.ok (renderValid articleData secs)

/-- Suggested download filename (App.js line 113): the title, or the
literal article when the title is falsy, with every character outside
a-z, A-Z, 0-9 replaced by an underscore, lower-cased, suffixed .md. -/
def downloadFilename (article : ArticleRecord) : String :=
  String.mk (((jsOr article.title "article").data.map
    (fun c => if c.isAlphanum then c else '_')).map Char.toLower) ++ ".md"

/-- Containment of a pattern inside a string, the reading of "the output
contains X" used by the claims. -/
def containsStr (pat s : String) : Prop :=
  ∃ p q, s = p ++ pat ++ q

/-- Chunks appear, in the given order and without overlap, inside a
string. -/
def appearsInOrder : List String → String → Prop
  | [], _ => True
  | c :: rest, s => ∃ p q, s = p ++ c ++ q ∧ appearsInOrder rest q

/-- Chunk emitted for a text block: its value followed by a blank line.
Non-text blocks emit no text chunk. -/
def blockTextChunk (block : ContentBlock) : Option String :=
  if block.type = "text" then some (jsStr block.value ++ "\n\n") else none

/-- Text chunks of all sections, in section order and block order. -/
def textChunksOf (secs : List Section) : List String :=
  (secs.map (fun sec => sec.content.filterMap blockTextChunk)).flatten

/-- Blocks the claim C6 keeps: text blocks, and image blocks whose url
field is present. -/
def keepBlock (block : ContentBlock) : Bool :=
  block.type == "text" || (block.type == "image" && block.url.isSome)

/-- Section with the blocks removed that claim C6 says contribute
nothing. -/
def pruneSection (sec : Section) : Section :=
  { sec with content := sec.content.filter keepBlock }

/-- Article with the blocks removed that claim C6 says contribute
nothing. -/
def pruneArticle (articleData : ArticleRecord) : ArticleRecord :=
  { articleData with sections := articleData.sections.map (fun secs => secs.map pruneSection) }

/-- One emitted Markdown element, at the granularity of the append
statements of the source; field payloads are opaque. -/
inductive MdPiece where
  | titleP (t : String)
  | subtitleP (s : String)
  | introP (s : String)
  | headingP (s : String)
  | textP (v : String)
  | imageP (caption url : String)
  | faqHeadingP
  | faqP (question answer : String)
  | conclusionP (s : String)
deriving DecidableEq, Repr

/-- Markdown text of one emitted element, matching the template literals
of the source. -/
def pieceStr : MdPiece → String
  | .titleP t => "# " ++ t ++ "\n\n"
  | .subtitleP s => "## " ++ s ++ "\n\n"
  | .introP s => s ++ "\n\n"
  | .headingP s => "### " ++ s ++ "\n\n"
  | .textP v => v ++ "\n\n"
  | .imageP c u => "![" ++ c ++ "](" ++ u ++ ")" ++ "\n\n"
  | .faqHeadingP => "## Frequently Asked Questions" ++ "\n\n"
  | .faqP q a => "* **Q:** " ++ q ++ "\n" ++ "  **A:** " ++ a ++ "\n\n"
  | .conclusionP s => "## Conclusion" ++ "\n\n" ++ (s ++ "\n\n")

/-- Element emitted for one content block, if any. -/
def blockPiece (block : ContentBlock) : Option MdPiece :=
  if block.type = "text" then some (.textP (jsStr block.value))
  else if block.type = "image" ∧ truthy block.url then
    some (.imageP (jsOr block.caption "Image") (jsStr block.url))
  else none

/-- Elements emitted for one section. -/
def sectionPieces (sec : Section) : List MdPiece :=
  (if truthy sec.heading then [.headingP (jsStr sec.heading)] else [])
    ++ sec.content.filterMap blockPiece

/-- Elements emitted for the FAQ part. -/
def faqPieces : Option (List FaqEntry) → List MdPiece
  | none => []
  | some entries =>
    if entries.length > 0 then
      .faqHeadingP :: entries.map (fun f => .faqP f.question f.answer)
    else []

/-- Sequence of all emitted elements of a valid article, in emission
order. -/
def pieces (articleData : ArticleRecord) (secs : List Section) : List MdPiece :=
  [.titleP (jsOr articleData.title "Untitled Article")]
    ++ (if truthy articleData.subtitle then [.subtitleP (jsStr articleData.subtitle)] else [])
    ++ (if truthy articleData.introduction then [.introP (jsStr articleData.introduction)] else [])
    ++ (secs.map sectionPieces).flatten
    ++ faqPieces articleData.faq_section
    ++ (if truthy articleData.conclusion then [.conclusionP (jsStr articleData.conclusion)] else [])

/-- Recogniser of the FAQ heading element. -/
def isFaqHeading : MdPiece → Bool
  | .faqHeadingP => true
  | _ => false

/-- Question and answer of a FAQ element, if the element is one. -/
def faqQA : MdPiece → Option (String × String)
  | .faqP q a => some (q, a)
  | _ => none

/-- Modelled from the words of claim C9: the download filename with the
fallback base applied only when the title field is absent. -/
def specFilenameClaim (article : ArticleRecord) : String :=
  String.mk ((((match article.title with
                | none => "article"
                | some t => t : String)).data.map
    (fun c => if c.isAlphanum then c else '_')).map Char.toLower) ++ ".md"

/-- Modelled from the amended claim C9: the fallback base applies when
the title field is absent or the empty string. -/
def specFilenameAmended (article : ArticleRecord) : String :=
  String.mk ((((match article.title with
                | none => "article"
                | some t => if t = "" then "article" else t : String)).data.map
    (fun c => if c.isAlphanum then c else '_')).map Char.toLower) ++ ".md"

/-- Suffix property: the string is empty or ends in a blank line. -/
def endsBlank (s : String) : Prop :=
  s = "" ∨ ∃ p, s = p ++ "\n\n"

theorem format_some (articleData : ArticleRecord) (secs : List Section)
    (h : articleData.sections = some secs) :
    formatArticleAsMarkdown (some articleData) = Except.ok (renderValid articleData secs) := by
  simp only [formatArticleAsMarkdown, h]

theorem strConcat_append (l₁ l₂ : List String) :
    strConcat (l₁ ++ l₂) = strConcat l₁ ++ strConcat l₂ := by
  induction l₁ with
  | nil => simp [strConcat, String.empty_append]
  | cons s rest ih => simp [strConcat, ih, String.append_assoc]

theorem appearsInOrder_nil (s : String) : appearsInOrder [] s := trivial

theorem appearsInOrder_append_left (cs : List String) (p s : String)
    (h : appearsInOrder cs s) : appearsInOrder cs (p ++ s) := by
  cases cs with
  | nil => trivial
  | cons c rest =>
    obtain ⟨x, y, hxy, hrest⟩ := h
    exact ⟨p ++ x, y, by rw [hxy, ← String.append_assoc, ← String.append_assoc], hrest⟩

theorem appearsInOrder_append_right (cs : List String) (s q : String)
    (h : appearsInOrder cs s) : appearsInOrder cs (s ++ q) := by
  induction cs generalizing s with
  | nil => trivial
  | cons c rest ih =>
    obtain ⟨x, y, hxy, hrest⟩ := h
    exact ⟨x, y ++ q, by rw [hxy, String.append_assoc], ih y hrest⟩

theorem appearsInOrder_concat (xs ys : List String) (s t : String)
    (hx : appearsInOrder xs s) (hy : appearsInOrder ys t) :
    appearsInOrder (xs ++ ys) (s ++ t) := by
  induction xs generalizing s with
  | nil => simpa using appearsInOrder_append_left ys s t hy
  | cons c rest ih =>
    obtain ⟨x, y, hxy, hrest⟩ := hx
    exact ⟨x, y ++ t, by rw [hxy, String.append_assoc], ih y hrest⟩

theorem appearsInOrder_cons_head (c : String) (cs : List String) (t : String)
    (h : appearsInOrder cs t) : appearsInOrder (c :: cs) (c ++ t) :=
  ⟨"", t, by rw [String.empty_append], h⟩

theorem strConcat_mem_decomp {α : Type} (f : α → String) (l : List α) (x : α)
    (hx : x ∈ l) : ∃ p q, strConcat (l.map f) = p ++ f x ++ q := by
  induction l with
  | nil => cases hx
  | cons y rest ih =>
    rcases List.mem_cons.mp hx with rfl | hmem
    · exact ⟨"", strConcat (rest.map f), by simp [strConcat, String.empty_append]⟩
    · obtain ⟨p, q, hpq⟩ := ih hmem
      exact ⟨f y ++ p, q, by simp [strConcat, hpq, String.append_assoc]⟩

theorem sub_extend {s x p q : String} (h : s = p ++ x ++ q) (a b : String) :
    a ++ s ++ b = (a ++ p) ++ x ++ (q ++ b) := by
  subst h; simp [String.append_assoc]

theorem renderBlock_text (b : ContentBlock) (h : b.type = "text") :
    renderBlock b = jsStr b.value ++ "\n\n" := by
  simp [renderBlock, h]

theorem renderBlock_image (b : ContentBlock) (h : b.type = "image")
    (h2 : truthy b.url = true) :
    renderBlock b = "![" ++ jsOr b.caption "Image" ++ "](" ++ jsStr b.url ++ ")" ++ "\n\n" := by
  simp [renderBlock, h, h2]

theorem renderBlock_skip (b : ContentBlock) (h : keepBlock b = false) :
    renderBlock b = "" := by
  unfold keepBlock at h
  rw [Bool.or_eq_false_iff] at h
  obtain ⟨h1, h2⟩ := h
  rw [beq_eq_false_iff_ne] at h1
  rw [Bool.and_eq_false_iff] at h2
  unfold renderBlock
  rw [if_neg h1, if_neg]
  rintro ⟨him, htr⟩
  rcases h2 with h2 | h2
  · rw [beq_eq_false_iff_ne] at h2; exact h2 him
  · have hnone : b.url = none := by
      cases hu : b.url with
      | none => rfl
      | some u => rw [hu] at h2; simp at h2
    rw [hnone] at htr
    simp [truthy] at htr

theorem strConcat_renderBlock_filter (content : List ContentBlock) :
    strConcat ((content.filter keepBlock).map renderBlock)
      = strConcat (content.map renderBlock) := by
  induction content with
  | nil => rfl
  | cons b rest ih =>
    by_cases hb : keepBlock b
    · simp only [List.filter_cons, hb, if_pos, List.map_cons, strConcat]
      rw [ih]
    · have hb' : keepBlock b = false := by simpa using hb
      simp only [List.filter_cons, hb', Bool.false_eq_true, if_false, List.map_cons, strConcat]
      rw [ih, renderBlock_skip b hb', String.empty_append]

theorem renderSection_prune (sec : Section) :
    renderSection (pruneSection sec) = renderSection sec := by
  simp [renderSection, pruneSection, strConcat_renderBlock_filter]

theorem endsBlank_append {a b : String} (ha : endsBlank a) (hb : endsBlank b) :
    endsBlank (a ++ b) := by
  rcases hb with rfl | ⟨p, rfl⟩
  · rw [String.append_empty]; exact ha
  · exact Or.inr ⟨a ++ p, (String.append_assoc a p "\n\n").symm⟩

theorem endsBlank_strConcat (l : List String) (h : ∀ s ∈ l, endsBlank s) :
    endsBlank (strConcat l) := by
  induction l with
  | nil => exact Or.inl rfl
  | cons s rest ih =>
    exact endsBlank_append (h s (List.mem_cons_self s rest))
      (ih fun x hx => h x (List.mem_cons_of_mem s hx))

theorem endsBlank_renderBlock (b : ContentBlock) : endsBlank (renderBlock b) := by
  unfold renderBlock
  split
  · exact Or.inr ⟨jsStr b.value, rfl⟩
  · split
    · exact Or.inr ⟨_, rfl⟩
    · exact Or.inl rfl

theorem endsBlank_renderSection (sec : Section) : endsBlank (renderSection sec) := by
  unfold renderSection
  apply endsBlank_append
  · split
    · exact Or.inr ⟨_, rfl⟩
    · exact Or.inl rfl
  · refine endsBlank_strConcat _ fun s hs => ?_
    obtain ⟨b, _, rfl⟩ := List.mem_map.mp hs
    exact endsBlank_renderBlock b

theorem endsBlank_renderFaq (faq : Option (List FaqEntry)) : endsBlank (renderFaq faq) := by
  cases faq with
  | none => exact Or.inl rfl
  | some entries =>
    simp only [renderFaq]
    split
    · apply endsBlank_append
      · exact Or.inr ⟨_, rfl⟩
      · refine endsBlank_strConcat _ fun s hs => ?_
        obtain ⟨f, _, rfl⟩ := List.mem_map.mp hs
        exact Or.inr ⟨_, rfl⟩
    · exact Or.inl rfl

theorem endsBlank_renderValid (articleData : ArticleRecord) (secs : List Section) :
    endsBlank (renderValid articleData secs) := by
  unfold renderValid
  apply endsBlank_append
  apply endsBlank_append
  apply endsBlank_append
  apply endsBlank_append
  apply endsBlank_append
  · exact Or.inr ⟨_, rfl⟩
  · split
    · exact Or.inr ⟨_, rfl⟩
    · exact Or.inl rfl
  · split
    · exact Or.inr ⟨_, rfl⟩
    · exact Or.inl rfl
  · refine endsBlank_strConcat _ fun s hs => ?_
    obtain ⟨sec, _, rfl⟩ := List.mem_map.mp hs
    exact endsBlank_renderSection sec
  · exact endsBlank_renderFaq _
  · split
    · exact endsBlank_append (Or.inr ⟨"## Conclusion", rfl⟩) (Or.inr ⟨_, rfl⟩)
    · exact Or.inl rfl

theorem strConcat_pieceStr_blocks (content : List ContentBlock) :
    strConcat ((content.filterMap blockPiece).map pieceStr)
      = strConcat (content.map renderBlock) := by
  induction content with
  | nil => rfl
  | cons b rest ih =>
    by_cases ht : b.type = "text"
    · have hbp : blockPiece b = some (.textP (jsStr b.value)) := by simp [blockPiece, ht]
      simp only [List.filterMap_cons, hbp, List.map_cons, strConcat, pieceStr, ih,
        renderBlock_text b ht]
    · by_cases hi : b.type = "image" ∧ truthy b.url
      · have hbp : blockPiece b = some (.imageP (jsOr b.caption "Image") (jsStr b.url)) := by
          simp [blockPiece, ht, hi]
        have hr : renderBlock b
            = "![" ++ jsOr b.caption "Image" ++ "](" ++ jsStr b.url ++ ")" ++ "\n\n" :=
          renderBlock_image b hi.1 (by simpa using hi.2)
        simp only [List.filterMap_cons, hbp, List.map_cons, strConcat, pieceStr, hr, ih]
      · have hbp : blockPiece b = none := by simp [blockPiece, ht, hi]
        have hr : renderBlock b = "" := by simp [renderBlock, ht, hi]
        simp only [List.filterMap_cons, hbp, List.map_cons, strConcat, hr, ih,
          String.empty_append]

theorem strConcat_pieceStr_section (sec : Section) :
    strConcat ((sectionPieces sec).map pieceStr) = renderSection sec := by
  unfold sectionPieces renderSection
  rw [List.map_append, strConcat_append, strConcat_pieceStr_blocks]
  congr 1
  split
  · simp [strConcat, pieceStr, String.append_empty]
  · rfl

theorem strConcat_pieceStr_sections (secs : List Section) :
    strConcat (((secs.map sectionPieces).flatten).map pieceStr)
      = strConcat (secs.map renderSection) := by
  induction secs with
  | nil => rfl
  | cons sec rest ih =>
    simp only [List.map_cons, List.flatten_cons, List.map_append, strConcat_append, ih,
      strConcat_pieceStr_section, strConcat]

theorem strConcat_faq_entries (entries : List FaqEntry) :
    strConcat ((entries.map (fun f => MdPiece.faqP f.question f.answer)).map pieceStr)
      = strConcat (entries.map renderFaqEntry) := by
  induction entries with
  | nil => rfl
  | cons f rest ih => simp only [List.map_cons, strConcat, pieceStr, renderFaqEntry, ih]

theorem strConcat_pieceStr_faq (faq : Option (List FaqEntry)) :
    strConcat ((faqPieces faq).map pieceStr) = renderFaq faq := by
  cases faq with
  | none => rfl
  | some entries =>
    simp only [faqPieces, renderFaq]
    split
    · simp only [List.map_cons, strConcat, pieceStr, strConcat_faq_entries,
        String.append_assoc]
    · rfl

theorem singleton_ite_pieceStr (c : Bool) (p : MdPiece) :
    strConcat ((if c then [p] else []).map pieceStr) = if c then pieceStr p else "" := by
  cases c <;> simp [strConcat, String.append_empty]

theorem renderValid_eq_pieces (articleData : ArticleRecord) (secs : List Section) :
    renderValid articleData secs = strConcat ((pieces articleData secs).map pieceStr) := by
  unfold pieces renderValid
  simp only [List.map_append, strConcat_append, strConcat_pieceStr_sections,
    strConcat_pieceStr_faq, singleton_ite_pieceStr, pieceStr]
  simp [strConcat, pieceStr, String.append_empty]

theorem no_faq_in_sectionPieces (sec : Section) (p : MdPiece) (hp : p ∈ sectionPieces sec) :
    isFaqHeading p = false ∧ faqQA p = none := by
  unfold sectionPieces at hp
  rcases List.mem_append.mp hp with h | h
  · split at h
    · rw [List.mem_singleton] at h; subst h; exact ⟨rfl, rfl⟩
    · cases h
  · obtain ⟨b, _, hb⟩ := List.mem_filterMap.mp h
    unfold blockPiece at hb
    split at hb
    · injection hb with h2; subst h2; exact ⟨rfl, rfl⟩
    · split at hb
      · injection hb with h2; subst h2; exact ⟨rfl, rfl⟩
      · cases hb

theorem no_faq_in_sections_flatten (secs : List Section) (p : MdPiece)
    (hp : p ∈ (secs.map sectionPieces).flatten) :
    isFaqHeading p = false ∧ faqQA p = none := by
  obtain ⟨l, hl, hpl⟩ := List.mem_flatten.mp hp
  obtain ⟨sec, _, rfl⟩ := List.mem_map.mp hl
  exact no_faq_in_sectionPieces sec p hpl

theorem filterMap_faqQA_entries (entries : List FaqEntry) :
    (entries.map (fun f => MdPiece.faqP f.question f.answer)).filterMap faqQA
      = entries.map (fun f => (f.question, f.answer)) := by
  induction entries with
  | nil => rfl
  | cons f rest ih => simp [List.filterMap_cons, faqQA, ih]

theorem countP_faqHeading_entries (entries : List FaqEntry) :
    (entries.map (fun f => MdPiece.faqP f.question f.answer)).countP isFaqHeading = 0 := by
  rw [List.countP_eq_zero]
  intro p hp
  obtain ⟨f, _, rfl⟩ := List.mem_map.mp hp
  simp [isFaqHeading]

theorem renderValid_head_decomp (articleData : ArticleRecord) (secs : List Section) :
    ∃ r, renderValid articleData secs
      = "# " ++ jsOr articleData.title "Untitled Article" ++ ("\n\n" ++ r) := by
  refine ⟨(if truthy articleData.subtitle then "## " ++ jsStr articleData.subtitle ++ "\n\n" else "")
      ++ ((if truthy articleData.introduction then jsStr articleData.introduction ++ "\n\n" else "")
      ++ (strConcat (secs.map renderSection)
      ++ (renderFaq articleData.faq_section
      ++ (if truthy articleData.conclusion then
            "## Conclusion" ++ "\n\n" ++ (jsStr articleData.conclusion ++ "\n\n")
          else "")))), ?_⟩
  unfold renderValid
  simp [String.append_assoc]

theorem renderValid_sections_decomp (articleData : ArticleRecord) (secs : List Section) :
    ∃ x y, renderValid articleData secs = x ++ strConcat (secs.map renderSection) ++ y := by
  refine ⟨("# " ++ jsOr articleData.title "Untitled Article" ++ "\n\n")
      ++ ((if truthy articleData.subtitle then "## " ++ jsStr articleData.subtitle ++ "\n\n" else "")
      ++ (if truthy articleData.introduction then jsStr articleData.introduction ++ "\n\n" else "")),
    renderFaq articleData.faq_section
      ++ (if truthy articleData.conclusion then
            "## Conclusion" ++ "\n\n" ++ (jsStr articleData.conclusion ++ "\n\n")
          else ""), ?_⟩
  unfold renderValid
  simp [String.append_assoc]

theorem containsStr_refl (pat : String) : containsStr pat pat :=
  ⟨"", "", by rw [String.empty_append, String.append_empty]⟩

theorem containsStr_append_left (pat s p : String) (h : containsStr pat s) :
    containsStr pat (p ++ s) := by
  obtain ⟨x, y, hxy⟩ := h
  exact ⟨p ++ x, y, by rw [hxy]; simp [String.append_assoc]⟩

theorem containsStr_append_right (pat s q : String) (h : containsStr pat s) :
    containsStr pat (s ++ q) := by
  obtain ⟨x, y, hxy⟩ := h
  exact ⟨x, y ++ q, by rw [hxy]; simp [String.append_assoc]⟩

/-- Article with the sections field absent, violating the input contract. -/
def artMissingSections : ArticleRecord :=
  { title := some "T", subtitle := none, introduction := none,
    sections := none, faq_section := none, conclusion := none }

/-- Minimal valid article: no title, empty sections list. -/
def artEmptySections : ArticleRecord :=
  { title := none, subtitle := none, introduction := none,
    sections := some [], faq_section := none, conclusion := none }

def richTextA : ContentBlock := { type := "text", value := some "Alpha", url := none, caption := none }

def richImage : ContentBlock := { type := "image", value := none, url := some "http://img", caption := some "Cap" }

def richVideo : ContentBlock := { type := "video", value := none, url := some "v", caption := none }

def richNoUrl : ContentBlock := { type := "image", value := none, url := none, caption := some "NoUrl" }

def richTextB : ContentBlock := { type := "text", value := some "Beta", url := none, caption := none }

def richSec1 : Section := { heading := some "One", content := [richTextA, richImage, richVideo] }

def richSec2 : Section := { heading := none, content := [richNoUrl, richTextB] }

def artRichSections : List Section := [richSec1, richSec2]

/-- Article exercising every branch of the serializer: all optional parts
present, text, image, unknown-type and url-less image blocks, two FAQ
entries. -/
def artRich : ArticleRecord :=
  { title := some "Mars", subtitle := some "A planet", introduction := some "Intro text.",
    sections := some artRichSections,
    faq_section := some [{ question := "Q1", answer := "A1" },
                         { question := "Q2", answer := "A2" }],
    conclusion := some "End." }

/-- Article whose single image block has an empty url and a caption. -/
def artEmptyUrl : ArticleRecord :=
  { title := some "T", subtitle := none, introduction := none,
    sections := some [{ heading := none,
                        content := [{ type := "image", value := none, url := some "",
                                      caption := some "Cap" }] }],
    faq_section := none, conclusion := none }

/-- Article whose title is present but empty. -/
def artEmptyTitle : ArticleRecord :=
  { title := some "", subtitle := none, introduction := none,
    sections := some [], faq_section := none, conclusion := none }

/-- C1, counterexample: the claim says a null (absent) article input makes
serialize raise a runtime fault and not return normally. At the concrete
input none, the source (App.js line 59) instead returns normally with the
empty string, so the claim is false. -/
theorem C1_counterexample : formatArticleAsMarkdown none = Except.ok "" := rfl

/-- C1, amended: for a null (absent) article input, serialize does not
fault; it degrades gracefully, returning normally with the empty string. -/
theorem C1_null_graceful :
    formatArticleAsMarkdown none = Except.ok ""
      ∧ ∀ e, formatArticleAsMarkdown none ≠ Except.error e :=
  ⟨rfl, fun _ h => Except.noConfusion h⟩

/-- C2: for every non-null article whose sections field is absent,
serialize propagates an unrecoverable runtime error rather than returning
a string; for every non-null article that has a sections sequence, it
succeeds and returns a string. -/
theorem C2_sections_dichotomy (articleData : ArticleRecord) :
    (articleData.sections = none →
      ∃ e, formatArticleAsMarkdown (some articleData) = Except.error e) ∧
    (∀ secs, articleData.sections = some secs →
      ∃ md, formatArticleAsMarkdown (some articleData) = Except.ok md) := by
  constructor
  · intro h
    exact ⟨"TypeError: cannot read forEach of undefined sections",
      by simp [formatArticleAsMarkdown, h]⟩
  · intro secs h
    exact ⟨renderValid articleData secs, format_some articleData secs h⟩

/-- Witness for C2 at concrete inputs: an article without sections errors,
an article with an empty sections list returns a string. -/
theorem C2_sections_dichotomy_witness :
    (∃ e, formatArticleAsMarkdown (some artMissingSections) = Except.error e)
      ∧ ∃ md, formatArticleAsMarkdown (some artEmptySections) = Except.ok md :=
  ⟨(C2_sections_dichotomy artMissingSections).1 rfl,
   (C2_sections_dichotomy artEmptySections).2 [] rfl⟩

/-- C3: for every valid article input, the output begins with the line
for the fallback literal Untitled Article followed by a blank line when
the title is absent or empty, and otherwise with the title line followed
by a blank line. -/
theorem C3_title_line (articleData : ArticleRecord) (secs : List Section)
    (h : articleData.sections = some secs) :
    ∃ md, formatArticleAsMarkdown (some articleData) = Except.ok md ∧
      ((articleData.title = none ∨ articleData.title = some "") →
        ∃ r, md = "# Untitled Article\n\n" ++ r) ∧
      (∀ t, articleData.title = some t → t ≠ "" →
        ∃ r, md = "# " ++ t ++ "\n\n" ++ r) := by
  obtain ⟨r0, hr0⟩ := renderValid_head_decomp articleData secs
  refine ⟨renderValid articleData secs, format_some _ _ h, ?_, ?_⟩
  · intro ht
    have hX : jsOr articleData.title "Untitled Article" = "Untitled Article" := by
      rcases ht with ht | ht <;> simp [jsOr, truthy, ht]
    refine ⟨r0, ?_⟩
    rw [hr0, hX]
    rfl
  · intro t ht hne
    have hX : jsOr articleData.title "Untitled Article" = t := by
      simp [jsOr, truthy, jsStr, ht, hne]
    refine ⟨r0, ?_⟩
    rw [hr0, hX]
    simp [String.append_assoc]

/-- Witness for C3 at a concrete input without a title: the output starts
with the fallback title line. -/
theorem C3_title_line_witness :
    ∃ md, formatArticleAsMarkdown (some artEmptySections) = Except.ok md ∧
      ((artEmptySections.title = none ∨ artEmptySections.title = some "") →
        ∃ r, md = "# Untitled Article\n\n" ++ r) ∧
      (∀ t, artEmptySections.title = some t → t ≠ "" →
        ∃ r, md = "# " ++ t ++ "\n\n" ++ r) :=
  C3_title_line artEmptySections [] rfl

/-- C8: serialize is deterministic, a pure function of its argument:
identical inputs give identical output values. In this embedding the
source (App.js lines 58 to 98) is a total function performing no input
or output, so purity holds by construction and determinism is the
congruence below. -/
theorem C8_deterministic (a b : Option ArticleRecord) (h : a = b) :
    formatArticleAsMarkdown a = formatArticleAsMarkdown b := by rw [h]

/-- Witness for C8 at a concrete input: two calls on the same article
agree. -/
theorem C8_deterministic_witness :
    formatArticleAsMarkdown (some artRich) = formatArticleAsMarkdown (some artRich) :=
  C8_deterministic (some artRich) (some artRich) rfl

/-- C9, counterexample: the claim applies the fallback base name article
only when the title is absent. For the concrete article whose title is
present but empty, the code (App.js line 113) produces article.md while
the claim as stated produces .md, so the claim is false. -/
theorem C9_counterexample :
    downloadFilename artEmptyTitle = "article.md"
      ∧ specFilenameClaim artEmptyTitle = ".md"
      ∧ downloadFilename artEmptyTitle ≠ specFilenameClaim artEmptyTitle :=
  ⟨by decide, by decide, by decide⟩

/-- C9, amended: for every article, the suggested download filename equals
the title, with the fallback base name article used when the title is
absent or empty, with every non-alphanumeric character replaced by an
underscore, lower-cased, and suffixed .md. -/
theorem C9_filename (article : ArticleRecord) :
    downloadFilename article = specFilenameAmended article := by
  unfold downloadFilename specFilenameAmended
  cases ht : article.title with
  | none => simp [jsOr, truthy, jsStr]
  | some t =>
    by_cases hte : t = ""
    · subst hte; simp [jsOr, truthy, jsStr]
    · simp [jsOr, truthy, jsStr, hte]

theorem textChunks_blocks_appear (content : List ContentBlock) :
    appearsInOrder (content.filterMap blockTextChunk) (strConcat (content.map renderBlock)) := by
  induction content with
  | nil => trivial
  | cons b rest ih =>
    by_cases ht : b.type = "text"
    · have hc : blockTextChunk b = some (jsStr b.value ++ "\n\n") := by
        simp [blockTextChunk, ht]
      simp only [List.filterMap_cons, hc, List.map_cons, strConcat]
      rw [renderBlock_text b ht]
      exact appearsInOrder_cons_head _ _ _ ih
    · have hc : blockTextChunk b = none := by simp [blockTextChunk, ht]
      simp only [List.filterMap_cons, hc, List.map_cons, strConcat]
      exact appearsInOrder_append_left _ _ _ ih

theorem textChunks_appear (secs : List Section) :
    appearsInOrder (textChunksOf secs) (strConcat (secs.map renderSection)) := by
  induction secs with
  | nil => trivial
  | cons sec rest ih =>
    have hch : textChunksOf (sec :: rest)
        = sec.content.filterMap blockTextChunk ++ textChunksOf rest := by
      simp [textChunksOf]
    rw [hch, List.map_cons]
    show appearsInOrder _ (renderSection sec ++ strConcat (rest.map renderSection))
    apply appearsInOrder_concat
    · unfold renderSection
      exact appearsInOrder_append_left _ _ _ (textChunks_blocks_appear sec.content)
    · exact ih

/-- C4: for every valid article input, the exact value of every text
block, followed by a blank line, appears verbatim in the output, and
these chunks occur in section order and, within a section, in block
order. -/
theorem C4_text_in_order (articleData : ArticleRecord) (secs : List Section)
    (h : articleData.sections = some secs) :
    ∃ md, formatArticleAsMarkdown (some articleData) = Except.ok md ∧
      appearsInOrder (textChunksOf secs) md := by
  refine ⟨renderValid articleData secs, format_some _ _ h, ?_⟩
  unfold renderValid
  apply appearsInOrder_append_right
  apply appearsInOrder_append_right
  apply appearsInOrder_append_left
  exact textChunks_appear secs

/-- Witness for C4 at a concrete article with two sections and three text
and non-text blocks. -/
theorem C4_text_in_order_witness :
    ∃ md, formatArticleAsMarkdown (some artRich) = Except.ok md ∧
      appearsInOrder (textChunksOf artRichSections) md :=
  C4_text_in_order artRich artRichSections rfl

/-- C5, counterexample: the claim promises the image line for every image
block whose url field is present. At the concrete article whose image
block has the present-but-empty url and the caption Cap, the claim
demands the line for caption Cap and empty url, yet the output is only
the title line and contains no such line: the url is falsy, so the source
(App.js line 78) skips the block. -/
theorem C5_counterexample :
    formatArticleAsMarkdown (some artEmptyUrl) = Except.ok "# T\n\n"
      ∧ ¬ containsStr "![Cap]()" "# T\n\n" := by
  refine ⟨rfl, ?_⟩
  rintro ⟨p, q, hpq⟩
  have hlen := congrArg String.length hpq
  rw [String.length_append, String.length_append] at hlen
  have h5 : ("# T\n\n" : String).length = 5 := rfl
  have h8 : ("![Cap]()" : String).length = 8 := rfl
  rw [h5, h8] at hlen
  omega

/-- C5, amended: for every valid article input and every image block whose
url is present and non-empty, the output contains the image line, whose
caption part is the caption of the block when present and non-empty and
the literal Image otherwise, followed by a blank line. -/
theorem C5_image_line (articleData : ArticleRecord) (secs : List Section)
    (h : articleData.sections = some secs) (sec : Section) (hs : sec ∈ secs)
    (block : ContentBlock) (hb : block ∈ sec.content) (himg : block.type = "image")
    (u : String) (hu : block.url = some u) (hne : u ≠ "") :
    ∃ md, formatArticleAsMarkdown (some articleData) = Except.ok md ∧
      containsStr ("![" ++ (match block.caption with
                            | none => "Image"
                            | some c => if c = "" then "Image" else c)
        ++ "](" ++ u ++ ")" ++ "\n\n") md := by
  have hcap : jsOr block.caption "Image"
      = (match block.caption with
         | none => "Image"
         | some c => if c = "" then "Image" else c) := by
    cases hc : block.caption with
    | none => simp [jsOr, truthy]
    | some c => by_cases hce : c = "" <;> simp [jsOr, truthy, jsStr, hce]
  have htr : truthy block.url = true := by simp [hu, truthy, hne]
  have hr := renderBlock_image block himg htr
  rw [hu] at hr
  simp only [jsStr] at hr
  rw [hcap] at hr
  refine ⟨renderValid articleData secs, format_some _ _ h, ?_⟩
  rw [← hr]
  obtain ⟨x, y, hxy⟩ := renderValid_sections_decomp articleData secs
  rw [hxy]
  apply containsStr_append_right
  apply containsStr_append_left
  obtain ⟨p1, q1, hpq1⟩ := strConcat_mem_decomp renderSection secs sec hs
  rw [hpq1]
  apply containsStr_append_right
  apply containsStr_append_left
  unfold renderSection
  apply containsStr_append_left
  obtain ⟨p2, q2, hpq2⟩ := strConcat_mem_decomp renderBlock sec.content block hb
  rw [hpq2]
  apply containsStr_append_right
  apply containsStr_append_left
  exact containsStr_refl _

/-- Witness for C5 at a concrete image block with caption Cap and a
non-empty url. -/
theorem C5_image_line_witness :
    ∃ md, formatArticleAsMarkdown (some artRich) = Except.ok md ∧
      containsStr ("![" ++ "Cap" ++ "](" ++ "http://img" ++ ")" ++ "\n\n") md :=
  C5_image_line artRich artRichSections rfl richSec1 (by decide) richImage (by decide)
    rfl "http://img" rfl (by decide)

/-- C6: for every article, content blocks whose type is neither text nor
image, and image blocks missing the url field, contribute nothing: the
output equals the output of the same input with those blocks removed. -/
theorem C6_skipped_blocks (articleData : ArticleRecord) :
    formatArticleAsMarkdown (some (pruneArticle articleData))
      = formatArticleAsMarkdown (some articleData) := by
  cases hs : articleData.sections with
  | none => simp [formatArticleAsMarkdown, pruneArticle, hs]
  | some secs =>
    have hps : (pruneArticle articleData).sections = some (secs.map pruneSection) := by
      simp [pruneArticle, hs]
    rw [format_some _ _ hps, format_some _ _ hs]
    congr 1
    simp [renderValid, pruneArticle, List.map_map, Function.comp_def, renderSection_prune]

theorem countP_sections_flatten (secs : List Section) :
    ((secs.map sectionPieces).flatten).countP isFaqHeading = 0 := by
  rw [List.countP_eq_zero]
  intro p hp
  simp [(no_faq_in_sections_flatten secs p hp).1]

theorem countP_faqPieces (faq : Option (List FaqEntry)) :
    (faqPieces faq).countP isFaqHeading
      = (match faq with
         | none => 0
         | some entries => if entries.length > 0 then 1 else 0) := by
  cases faq with
  | none => rfl
  | some entries =>
    by_cases hl : entries.length > 0
    · simp [faqPieces, hl, List.countP_cons, countP_faqHeading_entries, isFaqHeading]
    · simp [faqPieces, hl]

theorem filterMap_sections_flatten (secs : List Section) :
    ((secs.map sectionPieces).flatten).filterMap faqQA = [] := by
  rw [List.filterMap_eq_nil_iff]
  intro p hp
  exact (no_faq_in_sections_flatten secs p hp).2

theorem filterMap_faqPieces (faq : Option (List FaqEntry)) :
    (faqPieces faq).filterMap faqQA
      = (faq.getD []).map (fun f => (f.question, f.answer)) := by
  cases faq with
  | none => rfl
  | some entries =>
    by_cases hl : entries.length > 0
    · have hfp : faqPieces (some entries)
          = .faqHeadingP :: entries.map (fun f => MdPiece.faqP f.question f.answer) := by
        simp [faqPieces, hl]
      rw [hfp, List.filterMap_cons]
      show (entries.map (fun f => MdPiece.faqP f.question f.answer)).filterMap faqQA = _
      rw [filterMap_faqQA_entries]
      rfl
    · have hnil : entries = [] := List.length_eq_zero.mp (by omega)
      subst hnil; simp [faqPieces]

/-- C7: the output of a valid article is the concatenation of its emitted
elements; the FAQ heading element is emitted exactly once when
faq_section has entries and never when it is absent or empty; and the
emitted question-and-answer elements are exactly the faq_section entries,
in input order. Each such element renders as one Q line and one A line. -/
theorem C7_faq (articleData : ArticleRecord) (secs : List Section)
    (h : articleData.sections = some secs) :
    formatArticleAsMarkdown (some articleData)
        = Except.ok (strConcat ((pieces articleData secs).map pieceStr)) ∧
    (pieces articleData secs).countP isFaqHeading
        = (match articleData.faq_section with
           | none => 0
           | some entries => if entries.length > 0 then 1 else 0) ∧
    (pieces articleData secs).filterMap faqQA
        = (articleData.faq_section.getD []).map (fun f => (f.question, f.answer)) := by
  refine ⟨by rw [format_some _ _ h, renderValid_eq_pieces], ?_, ?_⟩
  · unfold pieces
    simp only [List.countP_append, countP_sections_flatten, countP_faqPieces]
    have h1 : List.countP isFaqHeading
        [MdPiece.titleP (jsOr articleData.title "Untitled Article")] = 0 := rfl
    rw [h1]
    have h2 : ∀ (c : Bool) (p : MdPiece), isFaqHeading p = false →
        (if c then [p] else []).countP isFaqHeading = 0 := by
      intro c p hp
      cases c <;> simp [List.countP_cons, hp]
    rw [h2 (truthy articleData.subtitle) (MdPiece.subtitleP (jsStr articleData.subtitle)) rfl,
      h2 (truthy articleData.introduction) (MdPiece.introP (jsStr articleData.introduction)) rfl,
      h2 (truthy articleData.conclusion) (MdPiece.conclusionP (jsStr articleData.conclusion)) rfl]
    omega
  · unfold pieces
    simp only [List.filterMap_append, filterMap_sections_flatten, filterMap_faqPieces]
    have h1 : List.filterMap faqQA
        [MdPiece.titleP (jsOr articleData.title "Untitled Article")] = [] := rfl
    rw [h1]
    have h2 : ∀ (c : Bool) (p : MdPiece), faqQA p = none →
        (if c then [p] else []).filterMap faqQA = [] := by
      intro c p hp
      cases c <;> simp [List.filterMap_cons, hp]
    rw [h2 (truthy articleData.subtitle) (MdPiece.subtitleP (jsStr articleData.subtitle)) rfl,
      h2 (truthy articleData.introduction) (MdPiece.introP (jsStr articleData.introduction)) rfl,
      h2 (truthy articleData.conclusion) (MdPiece.conclusionP (jsStr articleData.conclusion)) rfl]
    simp

/-- Witness for C7 at a concrete article with two FAQ entries: the heading
is counted once and both entries are extracted in order. -/
theorem C7_faq_witness :
    formatArticleAsMarkdown (some artRich)
        = Except.ok (strConcat ((pieces artRich artRichSections).map pieceStr)) ∧
    (pieces artRich artRichSections).countP isFaqHeading
        = (match artRich.faq_section with
           | none => 0
           | some entries => if entries.length > 0 then 1 else 0) ∧
    (pieces artRich artRichSections).filterMap faqQA
        = (artRich.faq_section.getD []).map (fun f => (f.question, f.answer)) :=
  C7_faq artRich artRichSections rfl

/-- C10: for every non-null article input with a sections sequence, the
output is non-empty, begins with the two characters of a level-one
heading marker, and ends with a blank line, the two-newline suffix. -/
theorem C10_shape (articleData : ArticleRecord) (secs : List Section)
    (h : articleData.sections = some secs) :
    ∃ md, formatArticleAsMarkdown (some articleData) = Except.ok md ∧
      md ≠ "" ∧ (∃ r, md = "# " ++ r) ∧ (∃ p, md = p ++ "\n\n") := by
  obtain ⟨r0, hr0⟩ := renderValid_head_decomp articleData secs
  have hlen2 : ("# " : String).length = 2 := rfl
  have hlen0 : ("" : String).length = 0 := rfl
  refine ⟨renderValid articleData secs, format_some _ _ h, ?_, ?_, ?_⟩
  · intro h0
    rw [h0] at hr0
    have hl := congrArg String.length hr0
    rw [String.length_append, String.length_append, hlen2, hlen0] at hl
    omega
  · refine ⟨jsOr articleData.title "Untitled Article" ++ ("\n\n" ++ r0), ?_⟩
    rw [hr0]
    simp [String.append_assoc]
  · rcases endsBlank_renderValid articleData secs with hempty | hfine
    · exfalso
      rw [hempty] at hr0
      have hl := congrArg String.length hr0
      rw [String.length_append, String.length_append, hlen2, hlen0] at hl
      omega
    · exact hfine

/-- Witness for C10 at a concrete article: the full output is non-empty,
starts with the heading marker and ends with a blank line. -/
theorem C10_shape_witness :
    ∃ md, formatArticleAsMarkdown (some artRich) = Except.ok md ∧
      md ≠ "" ∧ (∃ r, md = "# " ++ r) ∧ (∃ p, md = p ++ "\n\n") :=
  C10_shape artRich artRichSections rfl

end ArticleGenius
